import Mathlib

/-!
Verification of the esi-request HTTP/2 client library (src/index.ts).

The development shallowly embeds the library's pure core: the response
processing tail of `_make_request`, the `common_headers` intersection, the
two paginators' chunking/merging logic, the facade dispatch in `request`,
the retry-delay computation and retry loop of `_retry_request`, and the
connection queue management (`reject_old`, `close`, the reconnect loop)
of `ESIConnection` as an explicit state machine.

JavaScript platform builtins that interpret strings (`Number`, `Date.parse`,
`JSON.parse`) are modelled as abstract inputs: the embedding carries the
interpretation a string would receive rather than re-implementing the
platform parser. Times are integer milliseconds.
-/

namespace ESI

/-- JavaScript values as far as the library inspects them: JSON data plus
`undefined`. Numbers are exact rationals (enough to model `Number.isInteger`
and arithmetic on header-derived quantities). -/
inductive JSValue where
  | null
  | undef
  | bool (b : Bool)
  | num (q : ℚ)
  | str (s : String)
  | arr (elems : List JSValue)
  | obj (fields : List (String × JSValue))

/-- Header blocks: association lists from lowercased names to values,
modelling plain JS objects (unique keys, insertion order). -/
abbrev Headers := List (String × String)

/-- `ESIResponse` from src/index.ts: status, headers, and the optional
`body` (raw string), `data` (parsed JSON) and `responses` (sub-responses of
a merged paginated response) fields. -/
inductive ESIResponse where
  | mk (status : Nat) (headers : Headers) (body : Option String)
       (data : Option JSValue) (responses : Option (List ESIResponse))

def ESIResponse.status : ESIResponse → Nat
  | .mk s _ _ _ _ => s

def ESIResponse.headers : ESIResponse → Headers
  | .mk _ h _ _ _ => h

def ESIResponse.body : ESIResponse → Option String
  | .mk _ _ b _ _ => b

def ESIResponse.data : ESIResponse → Option JSValue
  | .mk _ _ _ d _ => d

def ESIResponse.responses : ESIResponse → Option (List ESIResponse)
  | .mk _ _ _ _ r => r

/-- Failure modes of the embedded code paths: a JavaScript `TypeError` from
dereferencing an absent value, an `ESIError` with its message, and the
JSON-parse failure path of `_make_request` (`ESIError.from(error, {status,
headers, body})`). -/
inductive JSErr where
  | typeError
  | esiError (message : String)
  | parseError (status : Nat) (headers : Headers) (body : String)

/-- Whether a `content-type` header value gates JSON decoding:
`response_headers["content-type"] && response_headers["content-type"]
.includes("application/json")` — the value is truthy (non-empty) and
contains the substring `application/json`. -/
def contentTypeJson (headers : Headers) : Bool :=
  match List.lookup "content-type" headers with
  | some ct => ct ≠ "" && (ct.splitOn "application/json").length > 1
  | none => false

/-- The response-processing tail of `_make_request` (src/index.ts lines
359-377), given the status, stripped headers, fully-read body string and the
`previous_response` option. `jsonParse` abstracts `JSON.parse` (`none` =
the parse throws). A 304 with no `previous_response` dereferences
`previous_response.status` on `undefined`: a `TypeError`. -/
def make_request_process (jsonParse : String → Option JSValue) (status : Nat)
    (headers : Headers) (body : String) (previous_response : Option ESIResponse) :
    Except JSErr ESIResponse :=
  if body ≠ "" then
    if contentTypeJson headers then
      match jsonParse body with
      | some data => .ok (.mk status headers none (some data) none)
      | none => .error (.parseError status headers body)
    else
      .ok (.mk status headers (some body) none none)
  else if status = 304 then
    match previous_response with
    | some p => .ok (.mk p.status headers none p.data none)
    | none => .error .typeError
  else
    .ok (.mk status headers none none none)

end ESI

namespace ESI

/-- One pass of the header-deleting inner loop of `ESIRequest.common_headers`
over one further response: a key of `common` survives with its (original)
value iff that response's headers hold the same value. -/
def commonStep (common : Headers) (r : ESIResponse) : Headers :=
  common.filter fun kv => List.lookup kv.1 r.headers == some kv.2

/-- `ESIRequest.common_headers` (src/index.ts lines 430-443): clone the
first response's headers, then for each remaining response delete every
header whose value differs. On an empty list, `responses[0].headers`
dereferences `undefined`: a `TypeError`. -/
def common_headers : List ESIResponse → Except JSErr Headers
  | [] => .error .typeError
  | r :: rest => .ok (rest.foldl commonStep r.headers)

/-- The folded deletion equals one filter by agreement with every remaining
response. -/
theorem commonStep_foldl (l : Headers) (rest : List ESIResponse) :
    rest.foldl commonStep l =
      l.filter fun kv => rest.all fun r => List.lookup kv.1 r.headers == some kv.2 := by
  induction rest generalizing l with
  | nil => simp
  | cons r rest ih =>
    simp only [List.foldl_cons, ih, commonStep, List.filter_filter, List.all_cons]
    congr 1
    funext kv
    rw [Bool.and_comm]

/-! ## Paginators (src/index.ts `_paginate_get`, `_paginate_post`) -/

/-- The additional page numbers of `_paginate_get`:
`new Array(pages - 1).fill(undefined).map((_, i) => i + 2)`, i.e.
`[2, 3, ..., pages]`. -/
def page_numbers (pages : Nat) : List Nat :=
  (List.range (pages - 1)).map (· + 2)

/-- One callback result of `responses.flatMap(response => response.data)`:
an array spreads, any other value (including `undefined`) contributes one
element. -/
def flatPart (r : ESIResponse) : List JSValue :=
  match r.data with
  | some (.arr l) => l
  | some v => [v]
  | none => [.undef]

/-- `responses.flatMap(response => response.data)`. -/
def flatMapData (rs : List ESIResponse) : List JSValue :=
  (rs.map flatPart).flatten

/-- `_paginate_get` (src/index.ts lines 447-493) from the point where the
first page and the page count are settled (after the anti-page-split
re-request, lines 470-492). `fetch p` abstracts the retried request for page
`p` (its result after `_retry_request` succeeds); the fan-out over
`Promise.all` preserves the order of `page_numbers`. The page-split check is
`!headers["expires"]`: it fires when the merged common headers hold no
`expires` entry, or hold it with the (falsy) empty-string value. -/
def paginate_get_after (fetch : Nat → ESIResponse) (first_page : ESIResponse)
    (pages : Nat) : Except JSErr ESIResponse :=
  if 1 < pages then
    let other_pages := (page_numbers pages).map fetch
    let responses := first_page :: other_pages
    match common_headers responses with
    | .error e => .error e
    | .ok headers =>
      if (List.lookup "expires" headers).getD "" = "" then
        .error (.esiError "Page split detected")
      else
        .ok (.mk first_page.status headers none
              (some (.arr (flatMapData responses))) (some responses))
  else
    .ok first_page

/-- `ToIntegerOrInfinity` as `Array.prototype.splice` applies it to its
`deleteCount` argument: truncation toward zero. -/
def jsTrunc (q : ℚ) : Int := q.num.tdiv q.den

/-- The chunking loop of `_paginate_post`:
`while (body_copy.length) body_chunks.push(body_copy.splice(0, body_page_size))`.
`splice(0, n)` removes `min(max(n, 0), length)` leading elements; when that
is `0` on a non-empty array the loop never terminates, which the embedding
reports as `none`. The fuel is the list length, sufficient whenever each
step removes at least one element. -/
def spliceChunks (size : Int) : Nat → List JSValue → Option (List (List JSValue))
  | _, [] => some []
  | 0, _ :: _ => none
  | fuel + 1, x :: l =>
    let k := min size.toNat (x :: l).length
    if k = 0 then none
    else (spliceChunks size fuel ((x :: l).drop k)).map ((x :: l).take k :: ·)

/-- The chunks `_paginate_post` builds from `body` (`none` = the chunking
loop diverges). -/
def chunk_body (body : List JSValue) (body_page_size : ℚ) :
    Option (List (List JSValue)) :=
  spliceChunks (jsTrunc body_page_size) body.length body

/-- `_paginate_post` (src/index.ts lines 497-508). `fetch chunk` abstracts
the retried request whose body is `chunk`; `Promise.all` preserves chunk
order. With an empty `body` there are no chunks, and `common_headers`
dereferences `responses[0].headers` on `undefined`: a `TypeError`. -/
def paginate_post (fetch : List JSValue → ESIResponse) (body : List JSValue)
    (body_page_size : ℚ) : Option (Except JSErr ESIResponse) :=
  match chunk_body body body_page_size with
  | none => none
  | some body_chunks =>
    let responses := body_chunks.map fetch
    some (match common_headers responses with
      | .error e => .error e
      | .ok headers =>
        match responses with
        | [] => .error .typeError
        | r0 :: _ =>
          .ok (.mk r0.status headers none
                (some (.arr (flatMapData responses))) (some responses)))

/-! ## Facade dispatch (src/index.ts `request`, lines 510-527) -/

/-- The request methods of `ESIRequestOptions`. -/
inductive Method where
  | GET | POST | PUT | DELETE | HEAD | OPTIONS
deriving DecidableEq

/-- The fields of `ESIRequestOptions` that the facade dispatch inspects,
plus the remaining per-call options carried along. `body_page_size` is a JS
number (exact rational in the embedding), absent when the option was not
given. -/
structure ESIRequestOptions where
  method : Option Method := none
  headers : Headers := []
  parameters : List (String × String) := []
  query : List (String × String) := []
  body : Option JSValue := none
  body_page_size : Option ℚ := none
  token : Option String := none
  previous_response : Option ESIResponse := none

/-- `Number.isInteger(body_page_size)`: the option is present and its value
is an integer (`Number.isInteger(undefined)` is `false`). -/
def isIntegerNum : Option ℚ → Bool
  | some q => q.den = 1
  | none => false

/-- `Array.isArray(body)`. -/
def isArrayVal : Option JSValue → Bool
  | some (.arr _) => true
  | _ => false

/-- Which code path the facade selects. -/
inductive DispatchKind where
  | paginateGet | paginatePost | single
deriving DecidableEq

/-- The dispatch of `ESIRequest.request` (src/index.ts lines 510-527):
default GET pagination; else POST pagination when `method === "POST" &&
Number.isInteger(body_page_size) && Array.isArray(body)`; else a single
retried request. -/
def request_dispatch (o : ESIRequestOptions) : DispatchKind :=
  if o.method.getD .GET = .GET then .paginateGet
  else if o.method = some .POST && isIntegerNum o.body_page_size
       && isArrayVal o.body then .paginatePost
  else .single

/-! ## Retry loop (src/index.ts `_retry_request`, lines 381-427) -/

/-- A header value as the two JS builtins the retry loop applies to it
interpret it: `num` is `Number(s)` (`none` = `NaN`) and `date` is
`Date.parse(s)` in ms (`none` = `NaN`). -/
structure StrVal where
  num : Option ℚ := none
  date : Option Int := none

/-- The response headers the retry loop reads. `retry_after` is
`headers["retry-after"]`; `none` models the header being absent (or the
falsy empty string, which the truthiness test at line 397 also skips).
`date` is `headers["date"]`; `has_error_limit` is
`"x-esi-error-limit-reset" in headers`. -/
structure RetryHeaders where
  retry_after : Option StrVal := none
  date : Option StrVal := none
  has_error_limit : Bool := false

/-- `Date.parse(response.headers["date"])`. -/
def dateOf (h : RetryHeaders) : Option Int := h.date.bind StrVal.date

/-- The HTTP-date branch of the Retry-After parse (line 402):
`Date.parse(retry-after) - Date.parse(date) + 1000`; `none` = `NaN`
(either parse failed). -/
def dateDelay (v : StrVal) (h : RetryHeaders) : Option Int :=
  match v.date, dateOf h with
  | some d1, some d2 => some (d1 - d2 + 1000)
  | _, _ => none

/-- The Retry-After parse (src/index.ts lines 396-404): with the header
present, an integer `Number` value gives `seconds * 1000`, anything else
falls to the HTTP-date branch. `none` = `delay` is left `undefined` (header
absent) or `NaN` (unparsable date). -/
def parseRetryAfter (h : RetryHeaders) : Option Int :=
  match h.retry_after with
  | none => none
  | some v =>
    match v.num with
    | some q => if q.den = 1 then some (q.num * 1000) else dateDelay v h
    | none => dateDelay v h

/-- The guard `!delay || delay < 0` (line 406): the parsed delay is
`undefined`/`NaN`, `0`, or negative. -/
def usesFallback : Option Int → Bool
  | some d => d ≤ 0
  | none => true

/-- The backoff-generator delay (lines 409-413): `retry_delay_high` when
`x-esi-error-limit-reset` is present, else `retry_delay_low`. -/
def fallbackDelay (h : RetryHeaders) (low high : Int) : Int :=
  if h.has_error_limit then high else low

/-- The delay the retry loop waits before retrying a 502/503/504 response
(lines 396-414), with `low`/`high` the next values of the two delay
iterators. -/
def computeDelay (h : RetryHeaders) (low high : Int) : Int :=
  let pa := parseRetryAfter h
  if usesFallback pa then fallbackDelay h low high else pa.getD 0

/-- What one `_make_request` exchange yields to the retry loop: the
response (status, retry-relevant headers, parsed body data) and how long
the exchange took. -/
structure RResponse where
  status : Nat
  retry : RetryHeaders := {}
  data : Option JSValue := none

structure Exchange where
  resp : RResponse
  duration : Int := 0

/-- Truthiness of a JS value. -/
def jsTruthy : JSValue → Bool
  | .null => false
  | .undef => false
  | .bool b => b
  | .num q => q ≠ 0
  | .str s => s ≠ ""
  | .arr _ => true
  | .obj _ => true

/-- The string form a JS value receives when stored as an error message
(`String(v)`); composite values are abstracted to their standard constant
renderings. -/
def jsValueMessage : JSValue → String
  | .str s => s
  | .num q => toString q
  | .bool b => cond b "true" "false"
  | .null => "null"
  | .undef => "undefined"
  | .arr _ => ""
  | .obj _ => "[object Object]"

/-- `ESIError.fromResponse` (src/index.ts lines 40-49): the message is
`response.data.error` when `response.data && response.data.error` is
truthy (only an object carries an `error` property), else
`"Response code " + status`. -/
def fromResponseMsg (r : RResponse) : String :=
  match r.data with
  | some (.obj fields) =>
    match List.lookup "error" fields with
    | some v => if jsTruthy v then jsValueMessage v else "Response code " ++ toString r.status
    | none => "Response code " ++ toString r.status
  | _ => "Response code " ++ toString r.status

/-- How one run of `_retry_request` ends, with the total number of
`_make_request` exchanges it performed. -/
inductive RetryOutcome where
  | ok (r : RResponse) (n : Nat)
  | httpError (r : RResponse) (n : Nat)
  | retryLimit (last : Option RResponse) (n : Nat)

/-- The `while` loop of `_retry_request` (lines 386-425). `exch i` is the
`i`-th exchange of this run (its response and duration); `lowG`/`highG` are
the two delay iterators, indexed by how often each was pulled; `attempts`
decreases every iteration; `now` tracks `Date.now()`; `last` is the
`response` variable. -/
def retry_loop (exch : Nat → Exchange) (lowG highG : Nat → Int)
    (time_limit : Int) :
    Nat → Nat → Nat → Nat → Int → Option RResponse → RetryOutcome
  | 0, i, _, _, _, last => .retryLimit last i
  | a + 1, i, li, hi, now, last =>
    if time_limit > now then
      let e := exch i
      let r := e.resp
      let t := now + e.duration
      if 200 ≤ r.status ∧ r.status ≤ 299 then .ok r (i + 1)
      else if 502 ≤ r.status ∧ r.status ≤ 504 then
        let fb := usesFallback (parseRetryAfter r.retry)
        let delay := computeDelay r.retry (lowG li) (highG hi)
        let li' := if fb && !r.retry.has_error_limit then li + 1 else li
        let hi' := if fb && r.retry.has_error_limit then hi + 1 else hi
        if delay > time_limit - t then .retryLimit (some r) (i + 1)
        else retry_loop exch lowG highG time_limit a (i + 1) li' hi' (t + delay) (some r)
      else .httpError r (i + 1)
    else .retryLimit last i

/-- `_retry_request` itself: `attempts = max_retries + 1`,
`time_limit = Date.now() + max_time`, fresh iterators, no response yet. -/
def retry_request (exch : Nat → Exchange) (lowG highG : Nat → Int)
    (max_retries : Nat) (max_time start : Int) : RetryOutcome :=
  retry_loop exch lowG highG (start + max_time) (max_retries + 1) 0 0 0 start none

/-- The number of exchanges an outcome records. -/
def outCount : RetryOutcome → Nat
  | .ok _ n => n
  | .httpError _ n => n
  | .retryLimit _ n => n

/-- The error `_retry_request` throws (or the response it returns):
falling out of the loop throws `ESIError("Retry limit reached", response)`,
an unrecoverable status throws `ESIError.fromResponse(response)`. -/
structure ESIErrM where
  message : String
  response : Option RResponse

def retryResult : RetryOutcome → Except ESIErrM RResponse
  | .ok r _ => .ok r
  | .httpError r _ => .error ⟨fromResponseMsg r, some r⟩
  | .retryLimit last _ => .error ⟨"Retry limit reached", last⟩

/-! ## Connection state machine (src/index.ts `ESIConnection`, lines 69-168)

The connection's mutable state (the `closed` flag, the session handle, the
pending-request queue) and its transitions, at the granularity of the
code's await points. Pending requests are identified by a numeric id; a
request is *resolved* when its promise gets a stream
(`pending.resolve_function(...)` or a synchronous `session.request`) and
*rejected* when `pending.reject_function(...)` runs. -/

/-- A `PendingRequest` entry: its id and its `Date.now()` enqueue
timestamp. -/
structure Pending where
  id : Nat
  timestamp : Int
deriving DecidableEq

/-- `ESIConnection.reject_old` (src/index.ts lines 100-117): find the index
of the first entry young enough to stay (`Date.now() - timestamp <
max_pending_time`; `findIndex` returns `-1`, mapped to the length, when none
is); at index `0` return unchanged; otherwise reject the prefix before the
index and keep the rest. Returns (rejected entries, remaining queue). -/
def reject_old (max_pending_time now : Int) (queue : List Pending) :
    List Pending × List Pending :=
  let index :=
    match queue.findIdx? (fun r => decide (now - r.timestamp < max_pending_time)) with
    | some i => i
    | none => queue.length
  if index = 0 then ([], queue)
  else (queue.take index, queue.drop index)

/-- The status of `this.session` as the READY test at line 149 observes it:
`undefined`, or an established session that is open or has closed (an
established session is never `connecting`; destruction surfaces through the
`close` event and is not distinguished here). -/
inductive Sess where
  | absent | ready | closedS
deriving DecidableEq

/-- The connection's state: the `closed` flag, the session, how many
reconnect-loop iterations sit between `http2Connect` and the resumption of
`await once(session, "connect")`, the pending queue, and the log of
resolved / timeout-rejected request ids. -/
structure ConnState where
  closed : Bool
  sess : Sess
  inflight : Nat
  queue : List Pending
  resolved : List Nat
  rejected : List Nat
deriving DecidableEq

/-- The state of a freshly constructed connection, before the initial
`reconnect()` iteration runs. -/
def connInit : ConnState :=
  { closed := false, sess := .absent, inflight := 0,
    queue := [], resolved := [], rejected := [] }

/-- The observable events on a connection: the public `close()` and
`request(headers)` calls, a reconnect-loop iteration reaching its top and
starting `http2Connect` (a no-op once `closed` is set: the loop exits), the
in-flight connect attempt succeeding (the code re-checks nothing: it
installs the session and drains the queue) or failing at time `now`
(`reject_old` runs), and the session's `close` event. -/
inductive ConnEvent where
  | close
  | request (id : Nat) (ts : Int)
  | reconnectBegin
  | connectOk
  | connectFail (now : Int)
  | sessClose

/-- One transition of the connection state, with `mpt` the
`max_pending_time` setting. -/
def connStep (mpt : Int) (s : ConnState) : ConnEvent → ConnState
  | .close =>
    { s with closed := true,
             sess := if s.sess = .absent then .absent else .closedS }
  | .request id ts =>
    if s.sess = .ready then { s with resolved := s.resolved ++ [id] }
    else { s with queue := s.queue ++ [⟨id, ts⟩] }
  | .reconnectBegin =>
    if s.closed then s else { s with inflight := s.inflight + 1 }
  | .connectOk =>
    if s.inflight = 0 then s
    else { s with inflight := s.inflight - 1, sess := .ready,
                  resolved := s.resolved ++ s.queue.map Pending.id,
                  queue := [] }
  | .connectFail now =>
    if s.inflight = 0 then s
    else
      let out := reject_old mpt now s.queue
      { s with inflight := s.inflight - 1,
               rejected := s.rejected ++ out.1.map Pending.id,
               queue := out.2 }
  | .sessClose =>
    if s.sess = .ready then { s with sess := .closedS } else s

/-- A sequence of events applied in order. -/
def runConn (mpt : Int) (s : ConnState) (es : List ConnEvent) : ConnState :=
  es.foldl (connStep mpt) s

/-! ## Helper lemmas -/

/-- Taking up to the first index satisfying `p` (the length when none does)
is taking while `p` fails, and likewise for dropping. -/
theorem take_findIdx_eq_takeWhile {α : Type} (p : α → Bool) (l : List α) :
    l.take (match l.findIdx? p with | some i => i | none => l.length) =
      l.takeWhile (fun a => !p a) ∧
    l.drop (match l.findIdx? p with | some i => i | none => l.length) =
      l.dropWhile (fun a => !p a) := by
  induction l with
  | nil => simp
  | cons a l ih =>
    by_cases h : p a
    · simp [List.findIdx?_cons, h, List.takeWhile_cons, List.dropWhile_cons]
    · rw [List.findIdx?_cons, if_neg (by simp [h]), List.findIdx?_succ]
      cases hfi : l.findIdx? p with
      | none =>
        rw [hfi] at ih
        simp [h, ih.1, ih.2]
      | some i =>
        rw [hfi] at ih
        simp [h, ih.1, ih.2]

/-- `reject_old` splits the queue at the first young entry. -/
theorem reject_old_eq_take_drop (mpt now : Int) (q : List Pending) :
    reject_old mpt now q =
      (q.take (match q.findIdx? (fun r => decide (now - r.timestamp < mpt)) with
               | some i => i | none => q.length),
       q.drop (match q.findIdx? (fun r => decide (now - r.timestamp < mpt)) with
               | some i => i | none => q.length)) := by
  unfold reject_old
  split
  all_goals simp_all

/-- If every response's data is the corresponding array of `ds`, the merged
flat-map is their concatenation. -/
theorem flatMapData_of_arrays (rs : List ESIResponse) (ds : List (List JSValue))
    (h : rs.map ESIResponse.data = ds.map (fun l => some (JSValue.arr l))) :
    flatMapData rs = ds.flatten := by
  induction rs generalizing ds with
  | nil =>
    cases ds with
    | nil => simp [flatMapData]
    | cons d ds => simp at h
  | cons r rs ih =>
    cases ds with
    | nil => simp at h
    | cons d ds =>
      simp only [List.map_cons, List.cons.injEq] at h
      have hr : flatPart r = d := by
        unfold flatPart
        rw [h.1]
      simp only [flatMapData, List.map_cons, List.flatten_cons] at ih ⊢
      rw [hr, ih ds h.2]

/-- The extra page numbers are the consecutive integers from 2 to the page
count. -/
theorem page_numbers_eq_range' (pages : Nat) :
    page_numbers pages = List.range' 2 (pages - 1) := by
  rw [page_numbers, List.range'_eq_map_range]
  exact List.map_congr_left fun a _ => Nat.add_comm a 2

/-- The retry loop performs at most `a` further exchanges beyond the `i`
already counted. -/
theorem retry_loop_count_le (exch : Nat → Exchange) (lowG highG : Nat → Int)
    (tl : Int) :
    ∀ (a i li hi : Nat) (now : Int) (last : Option RResponse),
      outCount (retry_loop exch lowG highG tl a i li hi now last) ≤ i + a := by
  intro a
  induction a with
  | zero =>
    intro i li hi now last
    simp [retry_loop, outCount]
  | succ a ih =>
    intro i li hi now last
    simp only [retry_loop]
    split_ifs
    all_goals
      first
      | (simp only [outCount]; omega)
      | exact le_trans (ih _ _ _ _ _) (by omega)

/-- The exchange count never drops below the count at entry. -/
theorem retry_loop_count_ge (exch : Nat → Exchange) (lowG highG : Nat → Int)
    (tl : Int) :
    ∀ (a i li hi : Nat) (now : Int) (last : Option RResponse),
      i ≤ outCount (retry_loop exch lowG highG tl a i li hi now last) := by
  intro a
  induction a with
  | zero =>
    intro i li hi now last
    simp [retry_loop, outCount]
  | succ a ih =>
    intro i li hi now last
    simp only [retry_loop]
    split_ifs
    all_goals
      first
      | (simp only [outCount]; omega)
      | exact le_trans (by omega) (ih _ _ _ _ _)

/-- When the loop is entered with attempts and time left, at least one
exchange happens. -/
theorem retry_loop_succ_count_pos (exch : Nat → Exchange) (lowG highG : Nat → Int)
    (tl : Int) (a i li hi : Nat) (now : Int) (last : Option RResponse)
    (h : tl > now) :
    i < outCount (retry_loop exch lowG highG tl (a + 1) i li hi now last) := by
  simp only [retry_loop, if_pos h]
  split_ifs
  all_goals
    first
    | (simp only [outCount]; omega)
    | exact lt_of_lt_of_le (by omega) (retry_loop_count_ge exch lowG highG tl _ _ _ _ _ _)

/-- A `retryLimit` exit carries the entry `last` when no exchange happened,
and the response of the last performed exchange otherwise. -/
theorem retry_loop_retryLimit_last (exch : Nat → Exchange) (lowG highG : Nat → Int)
    (tl : Int) :
    ∀ (a i li hi : Nat) (now : Int) (last l : Option RResponse) (n : Nat),
      retry_loop exch lowG highG tl a i li hi now last = .retryLimit l n →
      (n = i ∧ l = last) ∨ (i < n ∧ l = some (exch (n - 1)).resp) := by
  intro a
  induction a with
  | zero =>
    intro i li hi now last l n h
    simp only [retry_loop, RetryOutcome.retryLimit.injEq] at h
    exact Or.inl ⟨h.2.symm, h.1.symm⟩
  | succ a ih =>
    intro i li hi now last l n h
    simp only [retry_loop] at h
    by_cases h1 : tl > now
    · rw [if_pos h1] at h
      by_cases h2 : 200 ≤ (exch i).resp.status ∧ (exch i).resp.status ≤ 299
      · rw [if_pos h2] at h
        exact absurd h (by simp)
      · rw [if_neg h2] at h
        by_cases h3 : 502 ≤ (exch i).resp.status ∧ (exch i).resp.status ≤ 504
        · rw [if_pos h3] at h
          by_cases h4 : computeDelay (exch i).resp.retry (lowG li) (highG hi) >
              tl - (now + (exch i).duration)
          · rw [if_pos h4] at h
            simp only [RetryOutcome.retryLimit.injEq] at h
            obtain ⟨hl1, hn1⟩ := h
            subst hn1
            refine Or.inr ⟨by omega, ?_⟩
            rw [← hl1]
            simp
          · rw [if_neg h4] at h
            rcases ih _ _ _ _ _ _ _ h with ⟨hn, hl⟩ | ⟨hn, hl⟩
            · subst hn
              refine Or.inr ⟨by omega, ?_⟩
              rw [hl]
              simp
            · exact Or.inr ⟨by omega, hl⟩
        · rw [if_neg h3] at h
          exact absurd h (by simp)
    · rw [if_neg h1] at h
      simp only [RetryOutcome.retryLimit.injEq] at h
      exact Or.inl ⟨h.2.symm, h.1.symm⟩

/-! ## Claims -/

/-- C6: for every pending-request queue and invocation of `reject_old()`,
exactly the entries before the first entry younger than `max_pending_time`
are rejected (all of them when no entry is young enough), and the surviving
entries are kept in their original FIFO order: the result is the
(takeWhile-old, dropWhile-old) split of the queue, whose parts concatenate
back to the original queue. -/
theorem C6_reject_old_split (mpt now : Int) (queue : List Pending) :
    reject_old mpt now queue =
      (queue.takeWhile (fun r => !decide (now - r.timestamp < mpt)),
       queue.dropWhile (fun r => !decide (now - r.timestamp < mpt))) ∧
    queue.takeWhile (fun r => !decide (now - r.timestamp < mpt)) ++
      queue.dropWhile (fun r => !decide (now - r.timestamp < mpt)) = queue := by
  have h := take_findIdx_eq_takeWhile (fun r => decide (now - r.timestamp < mpt)) queue
  refine ⟨?_, List.takeWhile_append_dropWhile _ _⟩
  rw [reject_old_eq_take_drop, h.1, h.2]

/-- C7: a single exchange whose response has an empty body and status 304,
given a `previous_response`, returns a Response whose status is
`previous_response.status` and whose `data` is the very value
`previous_response.data` (referential identity in JS; equality in the
embedding). -/
theorem C7_not_modified (jsonParse : String → Option JSValue) (headers : Headers)
    (p : ESIResponse) :
    make_request_process jsonParse 304 headers "" (some p) =
      .ok (.mk p.status headers none p.data none) := by
  simp [make_request_process]

/-- C10: a single exchange whose response has an empty body and status 304,
with no `previous_response` in the options, throws a `TypeError`
(dereferencing `previous_response.status` on `undefined`) instead of
returning a Response. -/
theorem C10_304_without_previous (jsonParse : String → Option JSValue)
    (headers : Headers) :
    make_request_process jsonParse 304 headers "" none = .error .typeError := by
  simp [make_request_process]

/-- C9: a POST pagination whose body is an empty array produces zero chunks,
and the merge step dereferences the first element of the empty responses
list, so the call throws a `TypeError` rather than resolving to a merged
Response. -/
theorem C9_empty_post_body (fetch : List JSValue → ESIResponse) (size : ℚ) :
    chunk_body [] size = some [] ∧
    paginate_post fetch [] size = some (.error .typeError) := by
  refine ⟨rfl, ?_⟩
  simp [paginate_post, chunk_body, spliceChunks, common_headers]

/-- C1: every merged paginated Response of a GET or POST pagination has a
non-empty `responses` list ordered by page number (page 1 followed by the
fetches of pages 2..pages in order) resp. by chunk number (the fetches of
the body chunks in order), and, when every sub-Response's data is an array,
its `data` is the concatenation of those arrays in that order. -/
theorem C1_merged_pagination :
    (∀ (fetch : Nat → ESIResponse) (first_page : ESIResponse) (pages : Nat)
       (r : ESIResponse) (rs : List ESIResponse),
       1 < pages →
       paginate_get_after fetch first_page pages = .ok r →
       r.responses = some rs →
       rs ≠ [] ∧ rs = first_page :: (List.range' 2 (pages - 1)).map fetch ∧
       rs.length = pages ∧
       ∀ ds : List (List JSValue),
         rs.map ESIResponse.data = ds.map (fun l => some (JSValue.arr l)) →
         r.data = some (.arr ds.flatten)) ∧
    (∀ (fetch : List JSValue → ESIResponse) (body : List JSValue) (size : ℚ)
       (r : ESIResponse) (rs : List ESIResponse),
       paginate_post fetch body size = some (.ok r) →
       r.responses = some rs →
       rs ≠ [] ∧
       (∃ chunks, chunk_body body size = some chunks ∧ rs = chunks.map fetch) ∧
       ∀ ds : List (List JSValue),
         rs.map ESIResponse.data = ds.map (fun l => some (JSValue.arr l)) →
         r.data = some (.arr ds.flatten)) := by
  constructor
  · intro fetch first_page pages r rs hp hok hrs
    rw [paginate_get_after, if_pos hp] at hok
    simp only [common_headers] at hok
    split at hok
    · exact absurd hok (by simp)
    · injection hok with hok
      subst hok
      simp only [ESIResponse.responses, Option.some.injEq] at hrs
      subst hrs
      refine ⟨by simp, by rw [page_numbers_eq_range'], ?_, ?_⟩
      · simp only [List.length_cons, List.length_map, page_numbers,
          List.length_range]
        omega
      · intro ds hds
        simp only [ESIResponse.data, Option.some.injEq, JSValue.arr.injEq]
        exact flatMapData_of_arrays _ ds hds
  · intro fetch body size r rs hok hrs
    unfold paginate_post at hok
    cases hcb : chunk_body body size with
    | none => rw [hcb] at hok; exact absurd hok (by simp)
    | some chunks =>
      rw [hcb] at hok
      injection hok with hok
      cases hresp : chunks.map fetch with
      | nil =>
        rw [hresp] at hok
        simp [common_headers] at hok
      | cons r0 rest =>
        rw [hresp] at hok
        simp only [common_headers] at hok
        injection hok with hok
        subst hok
        simp only [ESIResponse.responses, Option.some.injEq] at hrs
        subst hrs
        refine ⟨by simp, ⟨chunks, rfl, hresp.symm⟩, ?_⟩
        intro ds hds
        simp only [ESIResponse.data, Option.some.injEq, JSValue.arr.injEq]
        exact flatMapData_of_arrays _ ds hds

/-- Page 1 of the concrete two-page GET pagination used by the C1 witness. -/
def w1resp : ESIResponse :=
  .mk 200 [("expires", "later")] none (some (.arr [.num 1])) none

/-- Page 2 of the concrete two-page GET pagination used by the C1 witness. -/
def w2resp : ESIResponse :=
  .mk 200 [("expires", "later")] none (some (.arr [.num 2])) none

def w1fetch : Nat → ESIResponse := fun _ => w2resp

/-- The merged Response of the concrete two-page GET pagination. -/
def w1merged : ESIResponse :=
  .mk 200 [("expires", "later")] none (some (.arr [.num 1, .num 2]))
    (some [w1resp, w2resp])

/-- The per-chunk server behaviour of the concrete POST pagination. -/
def w2fetch : List JSValue → ESIResponse :=
  fun c => .mk 201 [("h", "v")] none (some (.arr c)) none

/-- The merged Response of the concrete POST pagination (body split into
chunks of one). -/
def w2merged : ESIResponse :=
  .mk 201 [("h", "v")] none (some (.arr [.num 3, .num 4]))
    (some [w2fetch [.num 3], w2fetch [.num 4]])

/-- Witness for C1: at the concrete two-page GET pagination and two-chunk
POST pagination, the merged data is the concatenation of the page data
arrays. -/
theorem C1_witness :
    w1merged.data =
      some (.arr ([[JSValue.num 1], [JSValue.num 2]] : List (List JSValue)).flatten) ∧
    w2merged.data =
      some (.arr ([[JSValue.num 3], [JSValue.num 4]] : List (List JSValue)).flatten) := by
  have hget := C1_merged_pagination.1 w1fetch w1resp 2 w1merged [w1resp, w2resp]
    (by norm_num) rfl rfl
  have hpost := C1_merged_pagination.2 w2fetch [.num 3, .num 4] 1 w2merged
    [w2fetch [.num 3], w2fetch [.num 4]] rfl rfl
  exact ⟨hget.2.2.2 _ rfl, hpost.2.2 _ rfl⟩

/-- C2 as stated: the POST paginator is selected exactly when the method is
POST, `body_page_size` is a *positive* integer and the body is an array;
any other combination with an explicit non-GET method yields a single
retried request. -/
def claimC2 : Prop :=
  ∀ o : ESIRequestOptions,
    (request_dispatch o = .paginatePost ↔
      (o.method = some .POST ∧
       (∃ q : ℚ, o.body_page_size = some q ∧ q.den = 1 ∧ 0 < q) ∧
       isArrayVal o.body = true)) ∧
    (∀ m, o.method = some m → m ≠ .GET →
      ¬(m = .POST ∧ (∃ q : ℚ, o.body_page_size = some q ∧ q.den = 1 ∧ 0 < q) ∧
        isArrayVal o.body = true) →
      request_dispatch o = .single)

/-- The options of the C2 counterexample: POST, an array body, and
`body_page_size = 0`. -/
def c2opts : ESIRequestOptions :=
  { method := some .POST, body := some (.arr []), body_page_size := some 0 }

/-- C2 fails on the code: with `method = POST`, `body_page_size = 0` (an
integer, but not positive) and an array body, `request` still dispatches to
the POST paginator, because the guard is `Number.isInteger(body_page_size)`
with no positivity check. -/
theorem C2_counterexample : ¬ claimC2 := by
  intro hc
  have h := (hc c2opts).1
  have hd : request_dispatch c2opts = .paginatePost := by rfl
  obtain ⟨-, ⟨q, hq, -, hqpos⟩, -⟩ := h.mp hd
  have h0 : some (0 : ℚ) = some q := by
    rw [← hq]; rfl
  rw [Option.some.injEq] at h0
  rw [← h0] at hqpos
  exact absurd hqpos (by norm_num)

/-- C2 amended: the POST paginator is selected exactly when the method is
POST, `body_page_size` is an integer (positivity is not checked) and the
body is an array; any other combination with an explicit non-GET method
yields a single retried request. -/
theorem C2_dispatch_amended (o : ESIRequestOptions) :
    (request_dispatch o = .paginatePost ↔
      (o.method = some .POST ∧ isIntegerNum o.body_page_size = true ∧
       isArrayVal o.body = true)) ∧
    (∀ m, o.method = some m → m ≠ .GET →
      ¬(m = .POST ∧ isIntegerNum o.body_page_size = true ∧
        isArrayVal o.body = true) →
      request_dispatch o = .single) := by
  constructor
  · unfold request_dispatch
    split
    · constructor
      · intro h; exact absurd h (by simp)
      · rintro ⟨hm, -, -⟩
        rename_i hget
        rw [hm] at hget
        simp at hget
    · split
      · rename_i hcond
        simp only [Bool.and_eq_true, decide_eq_true_eq] at hcond
        exact ⟨fun _ => ⟨hcond.1.1, hcond.1.2, hcond.2⟩, fun _ => rfl⟩
      · rename_i hcond
        constructor
        · intro h; exact absurd h (by simp)
        · rintro ⟨hm, hint, harr⟩
          exact absurd (by simp [hm, hint, harr]) hcond
  · intro m hm hmget hnot
    unfold request_dispatch
    rw [hm]
    rw [if_neg (by simpa using hmget)]
    rw [if_neg ?_]
    intro hcond
    simp only [Bool.and_eq_true, decide_eq_true_eq, Option.some.injEq] at hcond
    exact hnot ⟨hcond.1.1, hcond.1.2, hcond.2⟩

/-- Witness for C2's amended dispatch: a PUT request goes to the single
retried request path. -/
theorem C2_witness :
    request_dispatch { method := some .PUT } = .single := by
  refine (C2_dispatch_amended { method := some .PUT }).2 .PUT rfl
    (by decide) ?_
  rintro ⟨h, -, -⟩
  exact absurd h (by decide)

/-- C4 as stated: for a response carrying `retry-after`, an integer value
makes the slept delay `seconds * 1000`, and a non-integer value makes it
the HTTP-date difference plus 1000 ms. -/
def claimC4 : Prop :=
  ∀ (h : RetryHeaders) (low high : Int) (v : StrVal),
    h.retry_after = some v →
    (∀ q : ℚ, v.num = some q → q.den = 1 →
      computeDelay h low high = q.num * 1000) ∧
    (isIntegerNum v.num = false →
      ∀ d : Int, dateDelay v h = some d → computeDelay h low high = d)

/-- C4 fails on the code: `retry-after: 0` parses to the integer delay `0`,
which the guard `!delay || delay < 0` discards, so the loop sleeps the
backoff-generator value (here 500) instead of `0 * 1000`. -/
theorem C4_counterexample : ¬ claimC4 := by
  intro hc
  have h := (hc ⟨some ⟨some 0, none⟩, none, false⟩ 500 700 ⟨some 0, none⟩ rfl).1
    0 rfl rfl
  rw [show computeDelay ⟨some ⟨some 0, none⟩, none, false⟩ 500 700 = 500 from rfl] at h
  norm_num at h

/-- C4 amended: for a response carrying `retry-after`, an integer value
gives delay `seconds * 1000` when that is positive, and the fallback
generator delay when it is zero or negative; a non-integer value gives the
HTTP-date difference plus 1000 ms when that parses and is positive, and the
fallback generator delay when it is non-positive or unparsable. -/
theorem C4_retry_after_amended (h : RetryHeaders) (low high : Int) (v : StrVal)
    (hra : h.retry_after = some v) :
    (∀ q : ℚ, v.num = some q → q.den = 1 →
      (0 < q.num → computeDelay h low high = q.num * 1000) ∧
      (q.num ≤ 0 → computeDelay h low high = fallbackDelay h low high)) ∧
    (isIntegerNum v.num = false →
      (∀ d : Int, dateDelay v h = some d →
        (0 < d → computeDelay h low high = d) ∧
        (d ≤ 0 → computeDelay h low high = fallbackDelay h low high)) ∧
      (dateDelay v h = none → computeDelay h low high = fallbackDelay h low high)) := by
  constructor
  · intro q hq hden
    have hpa : parseRetryAfter h = some (q.num * 1000) := by
      simp [parseRetryAfter, hra, hq, hden]
    constructor
    · intro hpos
      rw [computeDelay, hpa]
      rw [show usesFallback (some (q.num * 1000)) = false by
        simp only [usesFallback, decide_eq_false_iff_not]; omega]
      simp
    · intro hneg
      rw [computeDelay, hpa]
      rw [show usesFallback (some (q.num * 1000)) = true by
        simp only [usesFallback, decide_eq_true_eq]; omega]
      rfl
  · intro hnotint
    have hpa : parseRetryAfter h = dateDelay v h := by
      cases hn : v.num with
      | none => simp [parseRetryAfter, hra, hn]
      | some q =>
        rw [hn] at hnotint
        simp only [isIntegerNum, decide_eq_false_iff_not] at hnotint
        simp [parseRetryAfter, hra, hn, hnotint]
    constructor
    · intro d hd
      rw [computeDelay, hpa, hd]
      constructor
      · intro hpos
        rw [show usesFallback (some d) = false by
          simp [usesFallback]; omega]
        simp
      · intro hneg
        rw [show usesFallback (some d) = true by
          simp [usesFallback, hneg]]
        rfl
    · intro hd
      rw [computeDelay, hpa, hd]
      rfl

/-- Witness for C4's amended delay rule: `retry-after: 2` sleeps 2000 ms. -/
theorem C4_witness :
    computeDelay ⟨some ⟨some 2, none⟩, none, false⟩ 500 700 = 2000 := by
  have h := (C4_retry_after_amended ⟨some ⟨some 2, none⟩, none, false⟩ 500 700
    ⟨some 2, none⟩ rfl).1 2 rfl rfl
  have h2 := h.1 (by norm_num)
  rw [h2]
  norm_num

/-- C5: every run of the retry loop performs at most `max_retries + 1`
exchanges (`max_retries = 0` with a positive time budget gives exactly
one), and an exit by exhausting attempts or the deadline without a 2xx
success fails with the error "Retry limit reached" carrying the last
Response obtained (none when no exchange happened). -/
theorem C5_retry_budget (exch : Nat → Exchange) (lowG highG : Nat → Int)
    (max_retries : Nat) (max_time start : Int) :
    outCount (retry_request exch lowG highG max_retries max_time start) ≤
      max_retries + 1 ∧
    (max_retries = 0 → 0 < max_time →
      outCount (retry_request exch lowG highG max_retries max_time start) = 1) ∧
    (∀ (l : Option RResponse) (n : Nat),
      retry_request exch lowG highG max_retries max_time start = .retryLimit l n →
      retryResult (.retryLimit l n) = .error ⟨"Retry limit reached", l⟩ ∧
      ((n = 0 ∧ l = none) ∨ (0 < n ∧ l = some (exch (n - 1)).resp))) := by
  refine ⟨?_, ?_, ?_⟩
  · have h := retry_loop_count_le exch lowG highG (start + max_time)
      (max_retries + 1) 0 0 0 start none
    simpa [retry_request] using h
  · intro h0 hmt
    subst h0
    have hle := retry_loop_count_le exch lowG highG (start + max_time)
      (0 + 1) 0 0 0 start none
    have hpos := retry_loop_succ_count_pos exch lowG highG (start + max_time)
      0 0 0 0 start none (by omega)
    unfold retry_request
    omega
  · intro l n h
    unfold retry_request at h
    refine ⟨rfl, ?_⟩
    rcases retry_loop_retryLimit_last exch lowG highG (start + max_time)
        _ _ _ _ _ _ _ _ h with ⟨hn, hl⟩ | ⟨hn, hl⟩
    · exact Or.inl ⟨hn, hl⟩
    · exact Or.inr ⟨by omega, hl⟩

/-- The schedule of the C5 witness: every exchange is a 503 with no
Retry-After and takes no time; generators give 500 / 15000 ms. -/
def c5exch : Nat → Exchange := fun _ => ⟨⟨503, {}, none⟩, 0⟩

def c5low : Nat → Int := fun _ => 500

def c5high : Nat → Int := fun _ => 15000

/-- Witness for C5: with `max_retries = 0` and a 5 ms budget the loop makes
exactly one exchange, and the retry-limit exit carries the message and the
last response. -/
theorem C5_witness :
    outCount (retry_request c5exch c5low c5high 0 5 0) = 1 ∧
    retryResult (.retryLimit (some (c5exch 0).resp) 1) =
      .error ⟨"Retry limit reached", some (c5exch 0).resp⟩ := by
  have h := C5_retry_budget c5exch c5low c5high 0 5 0
  exact ⟨h.2.1 rfl (by norm_num), (h.2.2 (some (c5exch 0).resp) 1 (by rfl)).1⟩

/-- C8 as stated: a multi-page GET pagination fails with "Page split
detected" exactly when the common headers (the (name, value) pairs
identical across all page responses) lack the `expires` header. -/
def claimC8 : Prop :=
  ∀ (fetch : Nat → ESIResponse) (first_page : ESIResponse) (pages : Nat),
    1 < pages →
    (paginate_get_after fetch first_page pages =
        .error (.esiError "Page split detected") ↔
      List.lookup "expires"
        (((page_numbers pages).map fetch).foldl commonStep first_page.headers) =
        none)

/-- Every page of the C8 counterexample carries `expires` with the
empty-string value. -/
def c8resp : ESIResponse := .mk 200 [("expires", "")] none (some (.arr [])) none

/-- C8 fails on the code: when every page agrees on an empty-string
`expires` value, the common headers do contain the pair ("expires", ""),
yet the truthiness check `!headers["expires"]` still fires and the call
throws "Page split detected". -/
theorem C8_counterexample : ¬ claimC8 := by
  intro hc
  have h := hc (fun _ => c8resp) c8resp 2 (by norm_num)
  have he : paginate_get_after (fun _ => c8resp) c8resp 2 =
      .error (.esiError "Page split detected") := by rfl
  have hl := h.mp he
  rw [show List.lookup "expires"
      (((page_numbers 2).map (fun _ => c8resp)).foldl commonStep c8resp.headers) =
      some "" from rfl] at hl
  exact absurd hl (by simp)

/-- C8 amended: the multi-page merge fails with "Page split detected" iff
the common headers lack the `expires` header or hold it with the (falsy)
empty-string value. -/
theorem C8_page_split_amended (fetch : Nat → ESIResponse)
    (first_page : ESIResponse) (pages : Nat) (hp : 1 < pages) :
    paginate_get_after fetch first_page pages =
        .error (.esiError "Page split detected") ↔
      (List.lookup "expires"
        (((page_numbers pages).map fetch).foldl commonStep
          first_page.headers)).getD "" = "" := by
  rw [paginate_get_after, if_pos hp]
  simp only [common_headers]
  split
  · rename_i hcond
    exact iff_of_true rfl hcond
  · rename_i hcond
    exact iff_of_false (by simp) hcond

/-- First page of the C8 witness run. -/
def c8r1 : ESIResponse := .mk 200 [("expires", "a")] none (some (.arr [])) none

/-- Second page of the C8 witness run, regenerated with a different
`expires`. -/
def c8r2 : ESIResponse := .mk 200 [("expires", "b")] none (some (.arr [])) none

/-- Witness for C8's amended rule: two pages with differing `expires`
values lose the header in the intersection, and the merge fails with
"Page split detected". -/
theorem C8_witness :
    paginate_get_after (fun _ => c8r2) c8r1 2 =
      .error (.esiError "Page split detected") :=
  (C8_page_split_amended (fun _ => c8r2) c8r1 2 (by norm_num)).mpr (by rfl)

/-- The connection is closed, with no connect attempt in flight and no open
session: the situation after `close()` once any in-flight connect attempt
has concluded. -/
def closedQuiet (s : ConnState) : Prop :=
  s.closed = true ∧ s.inflight = 0 ∧ s.sess ≠ .ready

/-- One step preserves `closedQuiet`, settles nothing, and only appends to
the queue. -/
theorem connStep_closedQuiet (mpt : Int) (s : ConnState) (e : ConnEvent)
    (hs : closedQuiet s) :
    closedQuiet (connStep mpt s e) ∧
    (connStep mpt s e).resolved = s.resolved ∧
    (connStep mpt s e).rejected = s.rejected ∧
    ∃ q', (connStep mpt s e).queue = s.queue ++ q' := by
  obtain ⟨hc, hi, hr⟩ := hs
  cases e with
  | close =>
    refine ⟨⟨rfl, hi, ?_⟩, rfl, rfl, [], by simp [connStep]⟩
    show (if s.sess = .absent then Sess.absent else Sess.closedS) ≠ .ready
    split <;> simp
  | request id ts =>
    simp only [connStep]
    rw [if_neg hr]
    exact ⟨⟨hc, hi, hr⟩, rfl, rfl, [⟨id, ts⟩], rfl⟩
  | reconnectBegin =>
    have hstep : connStep mpt s .reconnectBegin = s := by
      simp only [connStep]
      rw [if_pos hc]
    rw [hstep]
    exact ⟨⟨hc, hi, hr⟩, rfl, rfl, [], by simp⟩
  | connectOk =>
    have hstep : connStep mpt s .connectOk = s := by
      simp only [connStep]
      rw [if_pos hi]
    rw [hstep]
    exact ⟨⟨hc, hi, hr⟩, rfl, rfl, [], by simp⟩
  | connectFail now =>
    have hstep : connStep mpt s (.connectFail now) = s := by
      simp only [connStep]
      rw [if_pos hi]
    rw [hstep]
    exact ⟨⟨hc, hi, hr⟩, rfl, rfl, [], by simp⟩
  | sessClose =>
    simp only [connStep]
    rw [if_neg hr]
    exact ⟨⟨hc, hi, hr⟩, rfl, rfl, [], by simp⟩

/-- Any event sequence from a `closedQuiet` state settles nothing and keeps
every queued entry. -/
theorem runConn_closedQuiet (mpt : Int) :
    ∀ (es : List ConnEvent) (s : ConnState), closedQuiet s →
      closedQuiet (runConn mpt s es) ∧
      (runConn mpt s es).resolved = s.resolved ∧
      (runConn mpt s es).rejected = s.rejected ∧
      ∃ q', (runConn mpt s es).queue = s.queue ++ q' := by
  intro es
  induction es with
  | nil =>
    intro s hs
    exact ⟨hs, rfl, rfl, [], by simp [runConn]⟩
  | cons e es ih =>
    intro s hs
    have h1 := connStep_closedQuiet mpt s e hs
    have h2 := ih (connStep mpt s e) h1.1
    have hrun : runConn mpt s (e :: es) = runConn mpt (connStep mpt s e) es := rfl
    rw [hrun]
    obtain ⟨hq1, hres1, hrej1, q1, hqq1⟩ := h1
    obtain ⟨hq2, hres2, hrej2, q2, hqq2⟩ := h2
    exact ⟨hq2, hres2.trans hres1, hrej2.trans hrej1, q1 ++ q2,
      by rw [hqq2, hqq1, List.append_assoc]⟩

/-- C3 as stated: `close()` is idempotent, and every request enqueued on
the pending queue after `close()` has been called is rejected (along some
continuation of events) rather than left unresolved. -/
def claimC3 : Prop :=
  (∀ (mpt : Int) (s : ConnState),
    connStep mpt (connStep mpt s .close) .close = connStep mpt s .close) ∧
  (∀ (mpt : Int) (es : List ConnEvent) (id : Nat) (ts : Int),
    (runConn mpt connInit es).closed = true →
    (runConn mpt connInit es).sess ≠ .ready →
    ∃ es', id ∈ (runConn mpt connInit (es ++ .request id ts :: es')).rejected)

/-- C3 fails on the code: after `close()` on a fresh connection, an
enqueued request is never rejected — the reconnect loop exits at its top
without touching the queue (only a failing connect attempt runs
`reject_old`, and none can start once `closed` is set), so no continuation
of events ever rejects the entry. -/
theorem C3_counterexample : ¬ claimC3 := by
  rintro ⟨-, h2⟩
  obtain ⟨es', hmem⟩ := h2 10000 [.close] 7 0 (by decide) (by decide)
  have hsplit : runConn 10000 connInit ([ConnEvent.close] ++ .request 7 0 :: es') =
      runConn 10000 (runConn 10000 connInit [ConnEvent.close, .request 7 0]) es' := by
    show runConn 10000 connInit ([ConnEvent.close, .request 7 0] ++ es') = _
    rw [runConn, List.foldl_append]
    rfl
  rw [hsplit] at hmem
  have hq : closedQuiet (runConn 10000 connInit [ConnEvent.close, .request 7 0]) :=
    ⟨rfl, rfl, by decide⟩
  have h3 := runConn_closedQuiet 10000 es' _ hq
  rw [h3.2.2.1] at hmem
  exact absurd hmem (by decide)

/-- C3 amended: `close()` is idempotent; but a request enqueued after
`close()` is never settled rather than rejected — once the connection is
closed with no connect attempt in flight and no open session, no sequence
of further events resolves or rejects anything, and every queued entry
stays in the queue. -/
theorem C3_close_amended :
    (∀ (mpt : Int) (s : ConnState),
      connStep mpt (connStep mpt s .close) .close = connStep mpt s .close) ∧
    (∀ (mpt : Int) (s : ConnState) (es : List ConnEvent),
      closedQuiet s →
      (runConn mpt s es).resolved = s.resolved ∧
      (runConn mpt s es).rejected = s.rejected ∧
      ∃ q', (runConn mpt s es).queue = s.queue ++ q') := by
  constructor
  · intro mpt s
    by_cases h : s.sess = .absent <;> simp [connStep, h]
  · intro mpt s es hs
    exact (runConn_closedQuiet mpt es s hs).2

/-- The closed connection of the C3 witness, holding one queued entry. -/
def c3state : ConnState := ⟨true, .closedS, 0, [⟨1, 0⟩], [], []⟩

/-- The events thrown at it: a reconnect-loop iteration (which exits), a
late connect failure (a no-op: nothing is in flight) and a session close. -/
def c3events : List ConnEvent := [.reconnectBegin, .connectFail 99999, .sessClose]

/-- Witness for C3's amended behaviour: on the concrete closed connection
nothing is resolved or rejected and the queued entry survives. -/
theorem C3_witness :
    (runConn 10000 c3state c3events).resolved = [] ∧
    (runConn 10000 c3state c3events).rejected = [] ∧
    ∃ q', (runConn 10000 c3state c3events).queue = [⟨1, 0⟩] ++ q' := by
  have h := C3_close_amended.2 10000 c3state c3events ⟨rfl, rfl, by decide⟩
  exact ⟨h.1, h.2.1, h.2.2⟩

end ESI
